import Mathlib

/-!
Verification development for the `redissertation` repository.

The repository consists of three Python scripts:
* `data.py` — tornado-report cleaning (the `find_valid_time` derivation);
* `process_reforecast_data.py` — the reforecast download/process pipeline
  (bounds validation, selection-dict construction, object-key enumeration,
  longitude normalization, the per-object worker with its cache check and
  exception swallowing);
* `download-GEFSV12-v0.1.py` — the FTP reanalysis bulk downloader with its
  disconnect-and-retry loop.

Each Python function used by a claim is shallowly embedded below, translated
directly from the source.  Timestamps are modelled as minutes since the epoch
(the epoch is midnight-aligned, exactly as pandas' `ceil('12H')` rounds
relative to the epoch), latitudes/longitudes/forecast-day bounds as rationals,
the local filesystem as an association list of paths.
-/

namespace Redissertation

/-! ## data.py: `find_valid_time`

`valid_times = (df.observation_datetime + pd.Timedelta('6H')).dt.ceil('12H')`
`valid_times = valid_times.where(valid_times.dt.hour != 0, valid_times + pd.Timedelta('12H'))`

Timestamps are minutes since an epoch that falls at midnight (pandas
timestamps count from 1970-01-01T00:00Z).  Twelve hours are 720 minutes,
one day is 1440 minutes, six hours are 360 minutes. -/

/-- `pandas` `Series.dt.ceil('12H')`: round a timestamp up to the nearest
multiple of 12 hours since the epoch (a timestamp already on a boundary is
unchanged). -/
def ceil12H (m : ℕ) : ℕ := 720 * ((m + 719) / 720)

/-- `find_valid_time` applied to a single observation timestamp `m` (minutes
since the epoch): add 6 hours, ceil to a 12-hour boundary, and push forward
12 hours when the result lands on hour 0. -/
def findValidTime (m : ℕ) : ℕ :=
  if ceil12H (m + 360) % 1440 = 0 then ceil12H (m + 360) + 720 else ceil12H (m + 360)

/-- `Series.dt.hour` of a timestamp in minutes since a midnight-aligned
epoch. -/
def hourOfDay (m : ℕ) : ℕ := m % 1440 / 60

/-- C1: the valid time is the observation timestamp plus 6 hours rounded up to
the nearest 12-hour boundary (`ceil12H` yields the least multiple of 720
minutes at or above its argument), pushed forward 12 hours exactly when that
rounding lands on hour 0.  An observation at 05:00Z of any day `d` yields
12:00Z of day `d`; an observation at 15:00Z of day `d` yields 12:00Z of day
`d + 1` (the spec's 2016-05-18 examples are the instances at that day); no
input ever yields a valid time whose hour-of-day is 0. -/
theorem findValidTime_rounds_up_to_12h :
    (∀ m : ℕ, 720 ∣ ceil12H (m + 360) ∧ m + 360 ≤ ceil12H (m + 360) ∧
      ceil12H (m + 360) < m + 360 + 720) ∧
    (∀ m : ℕ, findValidTime m =
      if ceil12H (m + 360) % 1440 = 0 then ceil12H (m + 360) + 720
      else ceil12H (m + 360)) ∧
    (∀ d : ℕ, findValidTime (1440 * d + 300) = 1440 * d + 720) ∧
    (∀ d : ℕ, findValidTime (1440 * d + 900) = 1440 * (d + 1) + 720) ∧
    (∀ m : ℕ, hourOfDay (findValidTime m) ≠ 0) := by
  refine ⟨fun m => ⟨⟨(m + 360 + 719) / 720, rfl⟩, ?_, ?_⟩, fun m => rfl, ?_, ?_, ?_⟩
  · unfold ceil12H; omega
  · unfold ceil12H; omega
  · intro d; unfold findValidTime ceil12H; split <;> omega
  · intro d; unfold findValidTime ceil12H; split <;> omega
  · intro m; unfold hourOfDay findValidTime ceil12H; split <;> omega

/-- C9: for every input timestamp the valid time is strictly later than the
observation timestamp, and its hour-of-day is always exactly 12. -/
theorem findValidTime_strictly_later_hour12 (m : ℕ) :
    m < findValidTime m ∧ hourOfDay (findValidTime m) = 12 := by
  unfold findValidTime hourOfDay ceil12H
  split <;> omega

/-- Closed instantiation of `findValidTime_strictly_later_hour12` at a
concrete timestamp. -/
theorem findValidTime_strictly_later_hour12_witness :
    300 < findValidTime 300 ∧ hourOfDay (findValidTime 300) = 12 :=
  findValidTime_strictly_later_hour12 300

/-- Closed instantiation of `findValidTime_rounds_up_to_12h`: the 05:00Z
example on day 0. -/
theorem findValidTime_rounds_up_to_12h_witness :
    findValidTime (1440 * 0 + 300) = 1440 * 0 + 720 :=
  findValidTime_rounds_up_to_12h.2.2.1 0

/-! ## process_reforecast_data.py: `create_selection_dict`

`latitude_slice = slice(max(latitude_bounds), min(latitude_bounds))`
`longitude_slice = slice(min(longitude_bounds), max(longitude_bounds))`
`first_forecast_hour = pd.Timedelta(f'{min(forecast_days_bounds)} days')`
`last_forecast_hour = pd.Timedelta(f'{max(forecast_days_bounds)} days')`

Bounds are rationals; a `pd.Timedelta` of `d` days is modelled as a duration
of `d * 1440` minutes; a `slice(a, b)` is modelled as the ordered pair
`(a, b)`. -/

/-- Duration (in minutes) of `pd.Timedelta` built from a number of days. -/
def timedeltaOfDays (d : ℚ) : ℚ := d * 1440

/-- Result of `create_selection_dict`: the dictionary
`dict(latitude=..., longitude=..., step=...)` of slices. -/
structure SelectionDict where
  latitude : ℚ × ℚ
  longitude : ℚ × ℚ
  step : ℚ × ℚ
  deriving DecidableEq, Repr

/-- `create_selection_dict(latitude_bounds, longitude_bounds,
forecast_days_bounds)`. -/
def create_selection_dict (latitudeBounds longitudeBounds forecastDaysBounds : ℚ × ℚ) :
    SelectionDict where
  latitude := (max latitudeBounds.1 latitudeBounds.2, min latitudeBounds.1 latitudeBounds.2)
  longitude := (min longitudeBounds.1 longitudeBounds.2, max longitudeBounds.1 longitudeBounds.2)
  step := (timedeltaOfDays (min forecastDaysBounds.1 forecastDaysBounds.2),
           timedeltaOfDays (max forecastDaysBounds.1 forecastDaysBounds.2))

/-- C3: `create_selection_dict` puts the latitude slice in descending order
(max to min), the longitude slice in ascending order (min to max), and the
forecast-step slice in ascending order after converting the day bounds to
durations; the result is invariant under swapping the order of each input
pair.  (The function is a pure computation: it is defined here, as in the
source, with no effect on any state.) -/
theorem create_selection_dict_canonical (a b c d e f : ℚ) :
    (create_selection_dict (a, b) (c, d) (e, f)).latitude = (max a b, min a b) ∧
    (create_selection_dict (a, b) (c, d) (e, f)).longitude = (min c d, max c d) ∧
    (create_selection_dict (a, b) (c, d) (e, f)).step =
      (timedeltaOfDays (min e f), timedeltaOfDays (max e f)) ∧
    (create_selection_dict (a, b) (c, d) (e, f)).latitude.2 ≤
      (create_selection_dict (a, b) (c, d) (e, f)).latitude.1 ∧
    (create_selection_dict (a, b) (c, d) (e, f)).longitude.1 ≤
      (create_selection_dict (a, b) (c, d) (e, f)).longitude.2 ∧
    (create_selection_dict (a, b) (c, d) (e, f)).step.1 ≤
      (create_selection_dict (a, b) (c, d) (e, f)).step.2 ∧
    create_selection_dict (a, b) (c, d) (e, f) = create_selection_dict (b, a) (c, d) (e, f) ∧
    create_selection_dict (a, b) (c, d) (e, f) = create_selection_dict (a, b) (d, c) (e, f) ∧
    create_selection_dict (a, b) (c, d) (e, f) = create_selection_dict (a, b) (c, d) (f, e) := by
  refine ⟨rfl, rfl, rfl, min_le_max, min_le_max, ?_, ?_, ?_, ?_⟩
  · have h : min e f ≤ max e f := min_le_max
    simp only [create_selection_dict, timedeltaOfDays]
    linarith
  · simp [create_selection_dict, max_comm, min_comm]
  · simp [create_selection_dict, max_comm, min_comm]
  · simp [create_selection_dict, max_comm, min_comm]

/-- Closed instantiation of `create_selection_dict_canonical` at concrete
bounds. -/
theorem create_selection_dict_canonical_witness :
    (create_selection_dict (22, 55) (230, 291) ((11:ℚ)/2, (13:ℚ)/2)).latitude =
      (max 22 55, min 22 55) :=
  (create_selection_dict_canonical 22 55 230 291 ((11:ℚ)/2) ((13:ℚ)/2)).1

/-! ## process_reforecast_data.py: longitude normalization

`ds['longitude'] = (('longitude',), np.mod(ds['longitude'].values + 180.0, 360.0) - 180.0)`

`np.mod(a, m)` for positive `m` is `a - m * floor(a / m)`. -/

/-- `np.mod(a, m)`: the remainder with the sign of the divisor,
`a - m * floor(a / m)`. -/
def npMod (a m : ℚ) : ℚ := a - m * (⌊a / m⌋ : ℤ)

/-- The longitude map applied by `download_and_process_grib`:
`np.mod(x + 180.0, 360.0) - 180.0`. -/
def normalizeLongitude (x : ℚ) : ℚ := npMod (x + 180) 360 - 180

lemma npMod_360_nonneg (x : ℚ) : 0 ≤ npMod x 360 := by
  unfold npMod
  have h : (360:ℚ) * Int.fract (x / 360) = x - 360 * (⌊x / 360⌋ : ℤ) := by
    rw [Int.fract]; ring
  nlinarith [Int.fract_nonneg (x / 360)]

lemma npMod_360_lt (x : ℚ) : npMod x 360 < 360 := by
  unfold npMod
  have h : (360:ℚ) * Int.fract (x / 360) = x - 360 * (⌊x / 360⌋ : ℤ) := by
    rw [Int.fract]; ring
  nlinarith [Int.fract_lt_one (x / 360)]

lemma normalizeLongitude_fixed (x : ℚ) (h₁ : -180 ≤ x) (h₂ : x < 180) :
    normalizeLongitude x = x := by
  unfold normalizeLongitude npMod
  have hf : ⌊(x + 180) / 360⌋ = 0 := by
    rw [Int.floor_eq_zero_iff]
    constructor
    · apply div_nonneg <;> linarith
    · rw [div_lt_one (by norm_num)]; linarith
  rw [hf]
  push_cast
  ring

/-- C5: the longitude normalization maps every value into `[-180, 180)`,
maps `350` to `-10` and `10` to `10`, is idempotent, and in fact leaves
every already-normalized value unchanged. -/
theorem normalizeLongitude_range_idempotent :
    (∀ x : ℚ, -180 ≤ normalizeLongitude x ∧ normalizeLongitude x < 180) ∧
    normalizeLongitude 350 = -10 ∧
    normalizeLongitude 10 = 10 ∧
    (∀ x : ℚ, normalizeLongitude (normalizeLongitude x) = normalizeLongitude x) ∧
    (∀ x : ℚ, -180 ≤ x → x < 180 → normalizeLongitude x = x) := by
  have hrange : ∀ x : ℚ, -180 ≤ normalizeLongitude x ∧ normalizeLongitude x < 180 := by
    intro x
    have h1 := npMod_360_nonneg (x + 180)
    have h2 := npMod_360_lt (x + 180)
    unfold normalizeLongitude
    constructor <;> linarith
  refine ⟨hrange, ?_, ?_, ?_, normalizeLongitude_fixed⟩
  · norm_num [normalizeLongitude, npMod]
  · norm_num [normalizeLongitude, npMod]
  · intro x
    exact normalizeLongitude_fixed _ (hrange x).1 (hrange x).2

/-- Closed instantiation of `normalizeLongitude_range_idempotent`. -/
theorem normalizeLongitude_range_idempotent_witness :
    normalizeLongitude 350 = -10 :=
  normalizeLongitude_range_idempotent.2.1

/-! ## process_reforecast_data.py: validation and object-key enumeration

`get_and_process_reforecast_data` first checks the three bound pairs, raising
a `ValueError` on failure, then selects the forecast-horizon bucket and
builds `globbed_list` by a comprehension iterating dates outermost, then
variable names, then members.  Dates are modelled as integer day numbers;
`pd.date_range(start, end, freq=f'{k}D')` yields `start, start+k, ...` up to
`end` inclusive.  A remote object key is determined by its (date, member,
horizon-bucket, variable) components; the enumeration and the raised errors
happen before any S3 access, which is mirrored here by the `Except` result:
the error branches are taken before any key list is built. -/

/-- The `DAYS_PREFIX` bucket chosen from the upper forecast-day bound:
`'Days:1-10'` when `max(forecast_days_bounds) < 10`, else `'Days:10-16'`. -/
def daysBucketFor (forecastDaysBounds : ℚ × ℚ) : String :=
  if max forecastDaysBounds.1 forecastDaysBounds.2 < 10 then "Days:1-10" else "Days:10-16"

/-- The components that determine one remote object key of `globbed_list`
(the f-string renders exactly these four pieces around the fixed bucket and
base path). -/
structure ObjectKey where
  date : ℤ
  member : String
  daysBucket : String
  varName : String
  deriving DecidableEq, Repr

/-- `pd.date_range(start_date, end_date, freq=f'{date_frequency}D')` as day
numbers: `start, start + k, ...` while `≤ end`; empty when `end < start`. -/
def dateRange (startDate endDate : ℤ) (freqDays : ℕ) : List ℤ :=
  if endDate < startDate then []
  else (List.range ((endDate - startDate).toNat / freqDays + 1)).map
    fun i : ℕ => startDate + (freqDays : ℤ) * (i : ℤ)

/-- The `globbed_list` comprehension: dates outermost, then variable names,
then members innermost. -/
def globbedList (dates : List ℤ) (varNames members : List String)
    (dBucket : String) : List ObjectKey :=
  dates.flatMap fun dt => varNames.flatMap fun varName => members.map fun member =>
    { date := dt, member := member, daysBucket := dBucket, varName := varName }

/-- The validation and enumeration part of `get_and_process_reforecast_data`:
the three `ValueError` checks, then the bucket choice and the `globbed_list`
comprehension.  The error strings are the static parts of the raised
messages. -/
def getAndProcessKeys (startDate endDate : ℤ) (dateFrequency : ℕ)
    (members varNames : List String)
    (latitudeBounds longitudeBounds forecastDaysBounds : ℚ × ℚ) :
    Except String (List ObjectKey) :=
  if ¬(min latitudeBounds.1 latitudeBounds.2 > -90 ∧
       max latitudeBounds.1 latitudeBounds.2 < 90) then
    .error "Latitude bounds need to be within -90 and 90"
  else if ¬(min longitudeBounds.1 longitudeBounds.2 ≥ 0 ∧
            max longitudeBounds.1 longitudeBounds.2 < 360) then
    .error "Longitude bounds must be positive and between 0-360"
  else if ¬(min forecastDaysBounds.1 forecastDaysBounds.2 ≥ 0 ∧
            max forecastDaysBounds.1 forecastDaysBounds.2 ≤ 16) then
    .error "Forecast hour bounds must be between 0-16 days"
  else
    .ok (globbedList (dateRange startDate endDate dateFrequency) varNames members
          (daysBucketFor forecastDaysBounds))

/-- Whether an `Except` result is a success. -/
def exceptIsOk {ε α : Type} : Except ε α → Bool
  | .ok _ => true
  | .error _ => false

/-- Acceptance predicate transcribed from the claim's words — latitude within
the closed interval `[-90, 90]`, longitude within `[0, 360)`, forecast days
within `[0, 16]` — for comparison against the validation the code actually
performs. -/
def claimedBoundsAccepted (lat lon fd : ℚ × ℚ) : Prop :=
  (-90 ≤ min lat.1 lat.2 ∧ max lat.1 lat.2 ≤ 90) ∧
  (0 ≤ min lon.1 lon.2 ∧ max lon.1 lon.2 < 360) ∧
  (0 ≤ min fd.1 fd.2 ∧ max fd.1 fd.2 ≤ 16)

/-- C2 (counterexample): latitude bounds `(0, 90)` lie within the closed
interval `[-90, 90]` of the claim (with in-range longitude and forecast-day
bounds), yet the validation rejects them, because the code requires
`max(latitude_bounds) < 90` strictly. -/
theorem validation_lat_endpoint_counterexample :
    claimedBoundsAccepted (0, 90) (0, 10) (0, 1) ∧
    getAndProcessKeys 0 0 1 ["c00"] ["cape_sfc"] (0, 90) (0, 10) (0, 1) =
      .error "Latitude bounds need to be within -90 and 90" := by
  constructor
  · norm_num [claimedBoundsAccepted]
  · rw [getAndProcessKeys, if_pos]
    norm_num

/-- C2 (amended): the validation succeeds exactly when the latitude bounds lie
strictly inside `(-90, 90)`, the longitude bounds within `[0, 360)`, and the
forecast-day bounds within `[0, 16]`; any failing bound pair yields one of the
three descriptive errors (each naming the offending bound and its range)
without any object key being enumerated — in particular latitude bounds
`(-95, 10)`, longitude bounds `(-10, 50)`, and forecast-day bounds `(0, 17)`
are each rejected. -/
theorem getAndProcessKeys_accepts_iff (startDate endDate : ℤ) (freq : ℕ)
    (members varNames : List String) (lat lon fd : ℚ × ℚ) :
    (exceptIsOk (getAndProcessKeys startDate endDate freq members varNames lat lon fd) = true ↔
      (-90 < min lat.1 lat.2 ∧ max lat.1 lat.2 < 90) ∧
      (0 ≤ min lon.1 lon.2 ∧ max lon.1 lon.2 < 360) ∧
      (0 ≤ min fd.1 fd.2 ∧ max fd.1 fd.2 ≤ 16)) ∧
    (∀ msg, getAndProcessKeys startDate endDate freq members varNames lat lon fd =
        .error msg →
      msg = "Latitude bounds need to be within -90 and 90" ∨
      msg = "Longitude bounds must be positive and between 0-360" ∨
      msg = "Forecast hour bounds must be between 0-16 days") ∧
    exceptIsOk (getAndProcessKeys 0 0 1 ["c00"] ["cape_sfc"]
      (-95, 10) (0, 10) (0, 1)) = false ∧
    exceptIsOk (getAndProcessKeys 0 0 1 ["c00"] ["cape_sfc"]
      (0, 10) (-10, 50) (0, 1)) = false ∧
    exceptIsOk (getAndProcessKeys 0 0 1 ["c00"] ["cape_sfc"]
      (0, 10) (0, 10) (0, 17)) = false := by
  refine ⟨?_, ?_, ?_, ?_, ?_⟩
  · unfold getAndProcessKeys
    split_ifs with h1 h2 h3 <;>
      simp only [exceptIsOk, Bool.false_eq_true, false_iff, eq_self_iff_true,
        true_iff] <;>
      tauto
  · unfold getAndProcessKeys
    split_ifs <;> intro msg hmsg <;> simp_all
  · rw [getAndProcessKeys, if_pos (by norm_num)]; rfl
  · rw [getAndProcessKeys, if_neg (by norm_num), if_pos (by norm_num)]; rfl
  · rw [getAndProcessKeys, if_neg (by norm_num), if_neg (by norm_num),
      if_pos (by norm_num)]; rfl

/-- Closed instantiation of `getAndProcessKeys_accepts_iff`: the CLI default
bounds are accepted. -/
theorem getAndProcessKeys_accepts_iff_witness :
    exceptIsOk (getAndProcessKeys 0 0 1 ["c00"] ["cape_sfc"]
      (22, 55) (230, 291) (5, 6)) = true :=
  (getAndProcessKeys_accepts_iff 0 0 1 ["c00"] ["cape_sfc"]
    (22, 55) (230, 291) (5, 6)).1.mpr (by norm_num)

lemma flatMap_const_length {α γ : Type} (xs : List α) (g : α → List γ) (n : ℕ)
    (h : ∀ x, (g x).length = n) : (xs.flatMap g).length = xs.length * n := by
  induction xs with
  | nil => simp
  | cons x xs ih => simp [List.flatMap_cons, ih, h, Nat.succ_mul]; ring

lemma flatMap_const_getElem {α γ : Type} (xs : List α) (g : α → List γ) (n : ℕ)
    (h : ∀ x, (g x).length = n) :
    ∀ (i r : ℕ) (hi : i < xs.length) (hr : r < n),
      (xs.flatMap g)[i * n + r]? = (g (xs.get ⟨i, hi⟩))[r]? := by
  induction xs with
  | nil => intro i r hi _; simp at hi
  | cons x xs ih =>
    intro i r hi hr
    match i with
    | 0 =>
      rw [List.flatMap_cons, List.getElem?_append_left (by rw [h]; omega)]
      simp
    | i + 1 =>
      rw [List.flatMap_cons,
        List.getElem?_append_right (by rw [h, Nat.succ_mul]; omega)]
      have hidx : (i + 1) * n + r - (g x).length = i * n + r := by
        rw [h, Nat.succ_mul]; omega
      rw [hidx]
      exact ih i r (by simpa using hi) hr

lemma mem_globbedList (dates : List ℤ) (varNames members : List String)
    (dBucket : String) (k : ObjectKey) :
    k ∈ globbedList dates varNames members dBucket ↔
      k.date ∈ dates ∧ k.varName ∈ varNames ∧ k.member ∈ members ∧
        k.daysBucket = dBucket := by
  cases k with
  | mk kd km kb kv =>
    simp only [globbedList, List.mem_flatMap, List.mem_map, ObjectKey.mk.injEq]
    constructor
    · rintro ⟨dt, hdt, v, hv, m, hm, rfl, rfl, rfl, rfl⟩
      exact ⟨hdt, hv, hm, rfl⟩
    · rintro ⟨h1, h2, h3, h4⟩
      exact ⟨kd, h1, kv, h2, km, h3, rfl, rfl, h4.symm, rfl⟩

lemma globbedList_nodup (dates : List ℤ) (varNames members : List String)
    (dBucket : String) (hd : dates.Nodup) (hv : varNames.Nodup)
    (hm : members.Nodup) :
    (globbedList dates varNames members dBucket).Nodup := by
  rw [globbedList, List.nodup_flatMap]
  constructor
  · intro dt _
    rw [List.nodup_flatMap]
    constructor
    · intro v _
      exact hm.map fun m1 m2 hkeys => by
        simpa using congrArg ObjectKey.member hkeys
    · refine hv.imp fun {v1 v2} hne k hk1 hk2 => hne ?_
      simp only [List.mem_map] at hk1 hk2
      obtain ⟨m1, _, rfl⟩ := hk1
      obtain ⟨m2, _, hk⟩ := hk2
      simpa using (congrArg ObjectKey.varName hk).symm
  · refine hd.imp fun {d1 d2} hne k hk1 hk2 => hne ?_
    simp only [List.mem_flatMap, List.mem_map] at hk1 hk2
    obtain ⟨v1, _, m1, _, rfl⟩ := hk1
    obtain ⟨v2, _, m2, _, hk⟩ := hk2
    simpa using (congrArg ObjectKey.date hk).symm

lemma dateRange_nodup (s e : ℤ) (freq : ℕ) (hfreq : 0 < freq) :
    (dateRange s e freq).Nodup := by
  rw [dateRange]
  split
  · exact List.nodup_nil
  · refine (List.nodup_range _).map ?_
    intro i1 i2 hii
    have : (freq : ℤ) * i1 = freq * i2 := by
      have := congrArg (fun z => z - s) hii
      simpa [add_sub_cancel_left] using this
    have hfz : (freq : ℤ) ≠ 0 := by exact_mod_cast hfreq.ne'
    exact_mod_cast mul_left_cancel₀ hfz this

/-- C4: `globbed_list` is the cartesian product of dates, variable names, and
members: its length is the product of the three list lengths (so 2 dates × 2
variables × 1 member give 4 keys); a key occurs in it exactly when its
components occur in the respective input lists; under duplicate-free inputs
the list itself is duplicate-free, so each (date, variable, member) triple
yields exactly one key; the key at flat position
`i * (#variables * #members) + j * #members + l` is built from the `i`-th
date, `j`-th variable, and `l`-th member, i.e. dates are outermost, then
variables, then members innermost; and the date list enumerated by
`pd.date_range` is itself duplicate-free for a positive stride.  The whole
enumeration is a pure computation of its inputs, hence deterministic. -/
theorem globbedList_cartesian (dates : List ℤ) (varNames members : List String)
    (dBucket : String) :
    ((globbedList dates varNames members dBucket).length =
      dates.length * (varNames.length * members.length)) ∧
    (∀ k : ObjectKey, k ∈ globbedList dates varNames members dBucket ↔
      k.date ∈ dates ∧ k.varName ∈ varNames ∧ k.member ∈ members ∧
        k.daysBucket = dBucket) ∧
    (dates.Nodup → varNames.Nodup → members.Nodup →
      (globbedList dates varNames members dBucket).Nodup) ∧
    (∀ (i j l : ℕ) (hi : i < dates.length) (hj : j < varNames.length)
      (hl : l < members.length),
      (globbedList dates varNames members
          dBucket)[i * (varNames.length * members.length) +
            (j * members.length + l)]? =
        some { date := dates.get ⟨i, hi⟩,
               member := members.get ⟨l, hl⟩,
               daysBucket := dBucket,
               varName := varNames.get ⟨j, hj⟩ }) ∧
    (∀ (s e : ℤ) (freq : ℕ), 0 < freq → (dateRange s e freq).Nodup) := by
  have hinner : ∀ dt : ℤ,
      ((varNames.flatMap fun varName => members.map fun member =>
        ({ date := dt, member := member, daysBucket := dBucket,
           varName := varName } : ObjectKey)).length) =
        varNames.length * members.length := by
    intro dt
    exact flatMap_const_length varNames _ members.length fun v => by simp
  refine ⟨?_, mem_globbedList dates varNames members dBucket,
    globbedList_nodup dates varNames members dBucket, ?_, dateRange_nodup⟩
  · exact flatMap_const_length dates _ _ hinner
  · intro i j l hi hj hl
    have houter := flatMap_const_getElem dates
      (fun dt => varNames.flatMap fun varName => members.map fun member =>
        ({ date := dt, member := member, daysBucket := dBucket,
           varName := varName } : ObjectKey))
      (varNames.length * members.length) hinner i (j * members.length + l) hi
      (by
        have h1 : j * members.length + l < (j + 1) * members.length := by
          rw [Nat.succ_mul]; omega
        exact Nat.lt_of_lt_of_le h1 (Nat.mul_le_mul_right _ (by omega)))
    rw [globbedList, houter]
    have hmid := flatMap_const_getElem varNames
      (fun varName => members.map fun member =>
        ({ date := dates.get ⟨i, hi⟩, member := member, daysBucket := dBucket,
           varName := varName } : ObjectKey))
      members.length (fun v => by simp) j l hj hl
    rw [hmid, List.getElem?_map, List.getElem?_eq_getElem hl]
    rfl

/-- Closed instantiation of `globbedList_cartesian`: 2 dates × 2 variables ×
1 member yield exactly 4 keys. -/
theorem globbedList_cartesian_witness :
    (globbedList [0, 1] ["cape_sfc", "cin_sfc"] ["c00"] "Days:1-10").length =
      2 * (2 * 1) :=
  (globbedList_cartesian [0, 1] ["cape_sfc", "cin_sfc"] ["c00"] "Days:1-10").1

/-! ## process_reforecast_data.py: `download_and_process_grib`

The per-object worker.  The local filesystem is the list of paths of existing
output files; the external effects (the S3 read, the two grib decoders, the
dataset transformation chain, and the netCDF write) are oracles collected in
a `GribEnv`, each returning `Except` to model the exceptions the Python code
catches.  The worker itself is a total function returning an optional saved
path — exactly as in the source, where the outer `try/except` catches every
exception, logs it, and returns `None`. -/

/-- `os.path.join(a, b)` for a relative second component. -/
def pyJoin (a b : String) : String :=
  if a = "" then b else if a.endsWith "/" then a ++ b else a ++ "/" ++ b

/-- `s3_prefix.split('/')[-1]`. -/
def lastSegment (s : String) : String := (s.splitOn "/").getLastD ""

/-- `base_file_name.split('.')[0]`. -/
def stemOf (s : String) : String := (s.splitOn ".").headD ""

/-- `saved_file_path = os.path.join(save_dir, f'{base_file_name.split(".")[0]}.nc')`. -/
def savedFilePathFor (saveDir s3Key : String) : String :=
  pyJoin saveDir (stemOf (lastSegment s3Key) ++ ".nc")

/-- Oracles for the worker's external effects.  Grib bytes and datasets are
abstracted as strings; every oracle may fail with an exception message. -/
structure GribEnv where
  fetch : String → Except String String
  openOne : String → Except String String
  openCombined : String → Except String String
  processDs : SelectionDict → String → Except String String
  writeNc : String → String → Except String Unit

/-- `try_to_open_grib_file`: try the plain `cfgrib` open; on an exception try
`cfgrib.open_datasets` + `combine_by_coords`; on a second exception log and
return `None`. -/
def tryToOpenGribFile (env : GribEnv) (bytes : String) : Option String :=
  match env.openOne bytes with
  | .ok ds => some ds
  | .error _ =>
    match env.openCombined bytes with
    | .ok ds => some ds
    | .error _ => none

/-- Observable outcome of one worker invocation: the returned value (the
saved path, or `none` for Python's `None`), the resulting local filesystem,
and how many S3 fetches were performed. -/
structure WorkerResult where
  saved : Option String
  files : List String
  fetchCount : ℕ
  deriving DecidableEq, Repr

/-- `download_and_process_grib`: short-circuit if the output file exists;
otherwise fetch, decode, transform and write inside a `try` block whose
`except` clause turns any failure into a `None` return. -/
def download_and_process_grib (env : GribEnv) (s3Key : String)
    (latitudeBounds longitudeBounds forecastDaysBounds : ℚ × ℚ)
    (saveDir : String) (files : List String) : WorkerResult :=
  if savedFilePathFor saveDir s3Key ∈ files then
    ⟨some (savedFilePathFor saveDir s3Key), files, 0⟩
  else
    match env.fetch s3Key with
    | .error _ => ⟨none, files, 1⟩
    | .ok bytes =>
      match tryToOpenGribFile env bytes with
      | none => ⟨none, files, 1⟩
      | some ds =>
        match env.processDs
            (create_selection_dict latitudeBounds longitudeBounds forecastDaysBounds) ds with
        | .error _ => ⟨none, files, 1⟩
        | .ok ds2 =>
          match env.writeNc ds2 (savedFilePathFor saveDir s3Key) with
          | .error _ => ⟨none, files, 1⟩
          | .ok _ =>
            ⟨some (savedFilePathFor saveDir s3Key),
              savedFilePathFor saveDir s3Key :: files, 1⟩

/-- The orchestrator's dispatch of the worker over `globbed_list` (the final
merge then opens every output file present, i.e. the resulting file list). -/
def runBatch (env : GribEnv) (keys : List String) (lat lon fd : ℚ × ℚ)
    (saveDir : String) (files : List String) :
    List (Option String) × List String :=
  match keys with
  | [] => ([], files)
  | k :: rest =>
    ((download_and_process_grib env k lat lon fd saveDir files).saved ::
       (runBatch env rest lat lon fd saveDir
         (download_and_process_grib env k lat lon fd saveDir files).files).1,
     (runBatch env rest lat lon fd saveDir
       (download_and_process_grib env k lat lon fd saveDir files).files).2)

/-- Some step of the worker's fetch/decode/process/write pipeline raises an
exception. -/
def pipelineFails (env : GribEnv) (s3Key : String) (seld : SelectionDict)
    (savedFilePath : String) : Prop :=
  (∃ e, env.fetch s3Key = .error e) ∨
  (∃ bytes, env.fetch s3Key = .ok bytes ∧
    (tryToOpenGribFile env bytes = none ∨
      (∃ ds, tryToOpenGribFile env bytes = some ds ∧
        ((∃ e, env.processDs seld ds = .error e) ∨
          (∃ ds2 e, env.processDs seld ds = .ok ds2 ∧
            env.writeNc ds2 savedFilePath = .error e)))))

lemma worker_cached (env : GribEnv) (s3Key : String) (lat lon fd : ℚ × ℚ)
    (saveDir : String) (files : List String)
    (hmem : savedFilePathFor saveDir s3Key ∈ files) :
    download_and_process_grib env s3Key lat lon fd saveDir files =
      ⟨some (savedFilePathFor saveDir s3Key), files, 0⟩ := by
  unfold download_and_process_grib
  rw [if_pos hmem]

lemma worker_files_cases (env : GribEnv) (s3Key : String) (lat lon fd : ℚ × ℚ)
    (saveDir : String) (files : List String) :
    ((download_and_process_grib env s3Key lat lon fd saveDir files).files = files ∧
      ∀ p, (download_and_process_grib env s3Key lat lon fd saveDir files).saved = some p →
        p ∈ files) ∨
    (∃ p, (download_and_process_grib env s3Key lat lon fd saveDir files).saved = some p ∧
      (download_and_process_grib env s3Key lat lon fd saveDir files).files = p :: files) := by
  unfold download_and_process_grib
  by_cases hmem : savedFilePathFor saveDir s3Key ∈ files
  · rw [if_pos hmem]
    exact Or.inl ⟨rfl, fun p hp => by
      simp only [Option.some.injEq] at hp; exact hp ▸ hmem⟩
  · rw [if_neg hmem]
    split
    · exact Or.inl ⟨rfl, by simp⟩
    · split
      · exact Or.inl ⟨rfl, by simp⟩
      · split
        · exact Or.inl ⟨rfl, by simp⟩
        · split
          · exact Or.inl ⟨rfl, by simp⟩
          · exact Or.inr ⟨savedFilePathFor saveDir s3Key, rfl, rfl⟩

/-- C6: when the worker's output file already exists, the worker returns that
path with the filesystem untouched and zero fetches; consequently a second
invocation after any successful run — under any environment at all, network
available or not — returns the same path, touches nothing, and fetches
nothing. -/
theorem download_and_process_grib_cache_idempotent (env : GribEnv)
    (s3Key : String) (lat lon fd : ℚ × ℚ) (saveDir : String)
    (files : List String) :
    (savedFilePathFor saveDir s3Key ∈ files →
      download_and_process_grib env s3Key lat lon fd saveDir files =
        ⟨some (savedFilePathFor saveDir s3Key), files, 0⟩) ∧
    (∀ p, (download_and_process_grib env s3Key lat lon fd saveDir files).saved = some p →
      ∀ env' : GribEnv,
        download_and_process_grib env' s3Key lat lon fd saveDir
            (download_and_process_grib env s3Key lat lon fd saveDir files).files =
          ⟨some p,
            (download_and_process_grib env s3Key lat lon fd saveDir files).files, 0⟩) := by
  have hsaved : ∀ p, (download_and_process_grib env s3Key lat lon fd saveDir files).saved =
      some p → p = savedFilePathFor saveDir s3Key := by
    intro p hp
    unfold download_and_process_grib at hp
    by_cases hmem : savedFilePathFor saveDir s3Key ∈ files
    · rw [if_pos hmem] at hp
      simpa using hp.symm
    · rw [if_neg hmem] at hp
      split at hp
      · simp at hp
      · split at hp
        · simp at hp
        · split at hp
          · simp at hp
          · split at hp
            · simp at hp
            · simpa using hp.symm
  constructor
  · exact worker_cached env s3Key lat lon fd saveDir files
  · intro p hp env'
    have hpe := hsaved p hp
    subst hpe
    have hmem' : savedFilePathFor saveDir s3Key ∈
        (download_and_process_grib env s3Key lat lon fd saveDir files).files := by
      rcases worker_files_cases env s3Key lat lon fd saveDir files with
        ⟨hfiles, hin⟩ | ⟨q, hq, hfiles⟩
      · rw [hfiles]; exact hin _ hp
      · rw [hq] at hp
        simp only [Option.some.injEq] at hp
        rw [hfiles, hp]
        exact List.mem_cons_self _ _
    exact worker_cached env' s3Key lat lon fd saveDir _ hmem'

/-- Closed instantiation of `download_and_process_grib_cache_idempotent`:
an existing output short-circuits the worker. -/
theorem download_and_process_grib_cache_idempotent_witness :
    download_and_process_grib
        ⟨fun _ => .error "offline", fun b => .ok b, fun b => .ok b,
          fun _ d => .ok d, fun _ _ => .ok ()⟩
        "bucket/k.grib2" (0, 1) (0, 1) (0, 1) "dir"
        [savedFilePathFor "dir" "bucket/k.grib2"] =
      ⟨some (savedFilePathFor "dir" "bucket/k.grib2"),
        [savedFilePathFor "dir" "bucket/k.grib2"], 0⟩ :=
  (download_and_process_grib_cache_idempotent
    ⟨fun _ => .error "offline", fun b => .ok b, fun b => .ok b,
      fun _ d => .ok d, fun _ _ => .ok ()⟩
    "bucket/k.grib2" (0, 1) (0, 1) (0, 1) "dir"
    [savedFilePathFor "dir" "bucket/k.grib2"]).1
    (List.mem_singleton.mpr rfl)

/-- C7: a failure in any pipeline step makes the worker return `None` — it is,
by construction, a total function, mirroring the source's catch-all `except`
— with the filesystem unchanged; the batch always yields one result per key;
and the final merge (the files present after the batch) consists of exactly
the initially present files plus the outputs of the successful workers, so a
failed object is simply absent. -/
theorem download_and_process_grib_swallows_failures (env : GribEnv)
    (s3Key : String) (keys : List String) (lat lon fd : ℚ × ℚ)
    (saveDir : String) (files : List String) :
    (pipelineFails env s3Key (create_selection_dict lat lon fd)
        (savedFilePathFor saveDir s3Key) →
      savedFilePathFor saveDir s3Key ∉ files →
      download_and_process_grib env s3Key lat lon fd saveDir files =
        ⟨none, files, 1⟩) ∧
    ((runBatch env keys lat lon fd saveDir files).1.length = keys.length) ∧
    (∀ p, p ∈ (runBatch env keys lat lon fd saveDir files).2 ↔
      p ∈ files ∨ some p ∈ (runBatch env keys lat lon fd saveDir files).1) := by
  refine ⟨?_, ?_, ?_⟩
  · intro hfail hmem
    unfold download_and_process_grib
    rw [if_neg hmem]
    rcases hfail with ⟨e, hf⟩ | ⟨bytes, hf, hrest⟩
    · simp only [hf]
    · rcases hrest with ho | ⟨ds, ho, hrest⟩
      · simp only [hf, ho]
      · rcases hrest with ⟨e, hpr⟩ | ⟨ds2, e, hpr, hw⟩
        · simp only [hf, ho, hpr]
        · simp only [hf, ho, hpr, hw]
  · induction keys generalizing files with
    | nil => rfl
    | cons k rest ih => simp only [runBatch, List.length_cons, ih]
  · induction keys generalizing files with
    | nil =>
      intro p
      simp [runBatch]
    | cons k rest ih =>
      intro p
      simp only [runBatch, List.mem_cons]
      rw [ih]
      rcases worker_files_cases env k lat lon fd saveDir files with
        ⟨hfiles, hin⟩ | ⟨q, hq, hfiles⟩
      · rw [hfiles]
        constructor
        · rintro (h | h)
          · exact Or.inl h
          · exact Or.inr (Or.inr h)
        · rintro (h | h | h)
          · exact Or.inl h
          · exact Or.inl (hin p h.symm)
          · exact Or.inr h
      · rw [hfiles, hq]
        simp only [List.mem_cons, Option.some.injEq]
        constructor
        · rintro ((rfl | h) | h)
          · exact Or.inr (Or.inl rfl)
          · exact Or.inl h
          · exact Or.inr (Or.inr h)
        · rintro (h | h | h)
          · exact Or.inl (Or.inr h)
          · exact Or.inl (Or.inl h)
          · exact Or.inr h

/-- Closed instantiation of `download_and_process_grib_swallows_failures`: a
fetch failure returns `None` and leaves the filesystem empty. -/
theorem download_and_process_grib_swallows_failures_witness :
    download_and_process_grib
        ⟨fun _ => .error "disconnect", fun b => .ok b, fun b => .ok b,
          fun _ d => .ok d, fun _ _ => .ok ()⟩
        "bucket/k.grib2" (0, 1) (0, 1) (0, 1) "dir" [] =
      ⟨none, [], 1⟩ :=
  (download_and_process_grib_swallows_failures
    ⟨fun _ => .error "disconnect", fun b => .ok b, fun b => .ok b,
      fun _ d => .ok d, fun _ _ => .ok ()⟩
    "bucket/k.grib2" [] (0, 1) (0, 1) (0, 1) "dir" []).1
    (Or.inl ⟨"disconnect", rfl⟩) (List.not_mem_nil _)

/-! ## download-GEFSV12-v0.1.py: the reanalysis bulk downloader

The script walks every date of the inclusive range and, for each of the four
synoptic hours `[0, 6, 12, 18]`, downloads a fixed-name file unless it
already exists; a file equal to the recorded `break_file` is deleted first.
On an `EOFError` or `ConnectionResetError` the function returns the failing
path with the flag still set, and the top-level `while flag` loop calls
`download` again with a fresh FTP session.

A file is identified by its (day offset, synoptic hour) pair; the local
filesystem is an association list mapping each existing file to a
completeness bit (`true` = fully written, `false` = the partial file left
behind by an interrupted `retrbinary`, which had already been created by
`open(path, 'wb')`).  The FTP transfer outcomes are an oracle from file to
result, indexed by pass number for the retry loop. -/

/-- One file of the download plan: (day offset within the range, synoptic
hour). -/
abbrev FtpFile := ℕ × ℕ

/-- The local directory tree: each existing file with its completeness bit
(`true` = fully downloaded, `false` = partial). -/
abbrev FSt := List (FtpFile × Bool)

/-- Outcome of one `ftp.retrbinary` call. -/
inductive DlResult where
  | success
  | eofError
  | connReset
  deriving DecidableEq, Repr

/-- `os.path.exists`-style lookup, also reporting the completeness bit. -/
def fsLookup : FSt → FtpFile → Option Bool
  | [], _ => none
  | (g, b) :: rest, f => if g = f then some b else fsLookup rest f

/-- `os.remove`. -/
def fsRemove (fs : FSt) (f : FtpFile) : FSt :=
  fs.filter fun e => decide (e.1 ≠ f)

/-- `open(path, 'wb')` followed by writing: (re)creates the file with the
given completeness bit. -/
def fsAdd (fs : FSt) (f : FtpFile) (b : Bool) : FSt := (f, b) :: fs

/-- `inittime = [0, 6, 12, 18]`. -/
def initTimes : List ℕ := [0, 6, 12, 18]

/-- `all_dates` × `filenames`: every file of the plan, dates outermost, in
chronological order. -/
def allFiles (numDays : ℕ) : List FtpFile :=
  (List.range numDays).flatMap fun d => initTimes.map fun t => (d, t)

/-- The number of dates in the inclusive range (`(end - start).days + 1`). -/
def daysInRange (startDay endDay : ℤ) : ℕ := (endDay - startDay).toNat + 1

/-- The `break_file` check and deletion performed at the head of each file's
iteration: `if os.path.exists(p) and break_file == p: os.remove(p)`. -/
def fsAfterBreakCheck (breakFile : Option FtpFile) (f : FtpFile) (fs : FSt) : FSt :=
  if (fsLookup fs f).isSome ∧ breakFile = some f then fsRemove fs f else fs

/-- The body of `download`: iterate over the remaining files; skip a file
that exists (after the break-file deletion); otherwise attempt the transfer,
adding a complete file on success and returning `(break_file, flag=True)`
with a partial file present on a disconnect.  Falling off the end returns
`(None, False)`. -/
def downloadGo (orc : FtpFile → DlResult) (breakFile : Option FtpFile) :
    List FtpFile → FSt → Option FtpFile × Bool × FSt
  | [], fs => (none, false, fs)
  | f :: rest, fs =>
    if (fsLookup (fsAfterBreakCheck breakFile f fs) f).isSome then
      downloadGo orc breakFile rest (fsAfterBreakCheck breakFile f fs)
    else
      match orc f with
      | .success => downloadGo orc breakFile rest (fsAdd (fsAfterBreakCheck breakFile f fs) f true)
      | .eofError => (some f, true, fsAdd (fsAfterBreakCheck breakFile f fs) f false)
      | .connReset => (some f, true, fsAdd (fsAfterBreakCheck breakFile f fs) f false)

/-- One call of `download(start_time, end_time, ..., break_file, flag)` over
the whole inclusive date range. -/
def downloadPass (orc : FtpFile → DlResult) (breakFile : Option FtpFile)
    (startDay endDay : ℤ) (fs : FSt) : Option FtpFile × Bool × FSt :=
  downloadGo orc breakFile (allFiles (daysInRange startDay endDay)) fs

/-- The `while flag:` retry loop, fuelled; each pass gets a fresh session,
modelled by the pass-indexed oracle. -/
def retryLoop (orc : ℕ → FtpFile → DlResult) (files : List FtpFile) :
    ℕ → ℕ → Option FtpFile → FSt → Option FtpFile × Bool × FSt
  | 0, _, bf, fs => (bf, true, fs)
  | fuel + 1, passIdx, bf, fs =>
    if (downloadGo (orc passIdx) bf files fs).2.1 then
      retryLoop orc files fuel (passIdx + 1)
        (downloadGo (orc passIdx) bf files fs).1
        (downloadGo (orc passIdx) bf files fs).2.2
    else
      downloadGo (orc passIdx) bf files fs

lemma fsLookup_remove (fs : FSt) (f g : FtpFile) :
    fsLookup (fsRemove fs f) g = if g = f then none else fsLookup fs g := by
  induction fs with
  | nil => simp [fsRemove, fsLookup]
  | cons e rest ih =>
    obtain ⟨x, b⟩ := e
    simp only [fsRemove, List.filter_cons] at ih ⊢
    split_ifs with h1 h2 h3 <;> simp_all [fsLookup] <;> split_ifs <;> simp_all

lemma fsLookup_add (fs : FSt) (f : FtpFile) (b : Bool) (g : FtpFile) :
    fsLookup (fsAdd fs f b) g = if g = f then some b else fsLookup fs g := by
  simp only [fsAdd, fsLookup]
  by_cases h : f = g
  · subst h; simp
  · rw [if_neg h, if_neg (Ne.symm h)]

lemma fsLookup_afterBreakCheck (bf : Option FtpFile) (f : FtpFile) (fs : FSt)
    (g : FtpFile) (h : bf ≠ some g ∨ f ≠ g) :
    fsLookup (fsAfterBreakCheck bf f fs) g = fsLookup fs g := by
  unfold fsAfterBreakCheck
  split
  · rename_i hc
    rw [fsLookup_remove]
    rcases h with h | h
    · have hfg : f ≠ g := fun he => h (he ▸ hc.2)
      rw [if_neg (Ne.symm hfg)]
    · rw [if_neg (Ne.symm h)]
  · rfl

lemma downloadGo_frame (orc : FtpFile → DlResult) (bf : Option FtpFile) :
    ∀ (files : List FtpFile) (fs : FSt) (g : FtpFile) (s : Bool),
      fsLookup fs g = some s → bf ≠ some g →
      fsLookup (downloadGo orc bf files fs).2.2 g = some s ∧
      (downloadGo orc bf files fs).1 ≠ some g := by
  intro files
  induction files with
  | nil =>
    intro fs g s hg _
    simp [downloadGo, hg]
  | cons f rest ih =>
    intro fs g s hg hbf
    have hA : fsLookup (fsAfterBreakCheck bf f fs) g = some s := by
      rw [fsLookup_afterBreakCheck bf f fs g (Or.inl hbf)]; exact hg
    simp only [downloadGo]
    split
    · exact ih _ g s hA hbf
    · rename_i hnex
      have hfg : f ≠ g := by
        intro he
        subst he
        exact hnex (by simp [hA])
      cases horc : orc f with
      | success =>
        simp only []
        refine ih _ g s ?_ hbf
        rw [fsLookup_add, if_neg (Ne.symm hfg)]
        exact hA
      | eofError =>
        simp only []
        constructor
        · rw [fsLookup_add, if_neg (Ne.symm hfg)]
          exact hA
        · simp [hfg]
      | connReset =>
        simp only []
        constructor
        · rw [fsLookup_add, if_neg (Ne.symm hfg)]
          exact hA
        · simp [hfg]

lemma downloadGo_disconnect (orc : FtpFile → DlResult) (bf : Option FtpFile) :
    ∀ (files : List FtpFile) (fs : FSt) (F : FtpFile) (fs' : FSt),
      downloadGo orc bf files fs = (some F, true, fs') →
      orc F ≠ .success ∧ fsLookup fs' F = some false ∧ F ∈ files := by
  intro files
  induction files with
  | nil =>
    intro fs F fs' hrun
    simp [downloadGo] at hrun
  | cons f rest ih =>
    intro fs F fs' hrun
    simp only [downloadGo] at hrun
    split at hrun
    · obtain ⟨h1, h2, h3⟩ := ih _ F fs' hrun
      exact ⟨h1, h2, List.mem_cons_of_mem f h3⟩
    · rename_i hnex
      cases horc : orc f with
      | success =>
        rw [horc] at hrun
        simp only [] at hrun
        obtain ⟨h1, h2, h3⟩ := ih _ F fs' hrun
        exact ⟨h1, h2, List.mem_cons_of_mem f h3⟩
      | eofError =>
        rw [horc] at hrun
        simp only [Prod.mk.injEq, Option.some.injEq] at hrun
        obtain ⟨hF, -, hfs'⟩ := hrun
        subst hF
        refine ⟨by simp [horc], ?_, List.mem_cons_self f rest⟩
        rw [← hfs', fsLookup_add, if_pos rfl]
      | connReset =>
        rw [horc] at hrun
        simp only [Prod.mk.injEq, Option.some.injEq] at hrun
        obtain ⟨hF, -, hfs'⟩ := hrun
        subst hF
        refine ⟨by simp [horc], ?_, List.mem_cons_self f rest⟩
        rw [← hfs', fsLookup_add, if_pos rfl]

lemma downloadGo_allSuccess (orc : FtpFile → DlResult) (h : ∀ f, orc f = .success)
    (bf : Option FtpFile) :
    ∀ (files : List FtpFile) (fs : FSt),
      (downloadGo orc bf files fs).1 = none ∧
      (downloadGo orc bf files fs).2.1 = false ∧
      ∀ g, fsLookup (downloadGo orc bf files fs).2.2 g =
        if g ∈ files ∧ (bf = some g ∨ fsLookup fs g = none) then some true
        else fsLookup fs g := by
  intro files
  induction files with
  | nil =>
    intro fs
    refine ⟨rfl, rfl, fun g => ?_⟩
    simp [downloadGo]
  | cons f rest ih =>
    intro fs
    simp only [downloadGo]
    split
    · rename_i hex
      obtain ⟨h1, h2, h3⟩ := ih (fsAfterBreakCheck bf f fs)
      refine ⟨h1, h2, fun g => ?_⟩
      rw [h3 g]
      by_cases hfg : f = g
      · subst hfg
        by_cases hrem : (fsLookup fs f).isSome ∧ bf = some f
        · exfalso
          have hAr : fsAfterBreakCheck bf f fs = fsRemove fs f := by
            unfold fsAfterBreakCheck
            rw [if_pos hrem]
          rw [hAr, fsLookup_remove, if_pos rfl] at hex
          simp at hex
        · have hAr : fsAfterBreakCheck bf f fs = fs := by
            unfold fsAfterBreakCheck
            rw [if_neg hrem]
          rw [hAr] at hex ⊢
          have hns : fsLookup fs f ≠ none := by
            intro hnone
            rw [hnone] at hex
            simp at hex
          have hbf : bf ≠ some f := by
            intro hbfe
            exact hrem ⟨hex, hbfe⟩
          rw [if_neg (by tauto), if_neg (by tauto)]
      · have hAg : fsLookup (fsAfterBreakCheck bf f fs) g = fsLookup fs g :=
          fsLookup_afterBreakCheck bf f fs g (Or.inr hfg)
        rw [hAg]
        have hne : g ≠ f := Ne.symm hfg
        exact if_congr (by simp [List.mem_cons, hne]) rfl rfl
    · rename_i hnex
      rw [h f]
      simp only []
      obtain ⟨h1, h2, h3⟩ := ih (fsAdd (fsAfterBreakCheck bf f fs) f true)
      refine ⟨h1, h2, fun g => ?_⟩
      rw [h3 g]
      by_cases hfg : f = g
      · subst hfg
        have hAdd : fsLookup (fsAdd (fsAfterBreakCheck bf f fs) f true) f = some true := by
          rw [fsLookup_add, if_pos rfl]
        rw [hAdd]
        have hRHS : (f ∈ f :: rest ∧ (bf = some f ∨ fsLookup fs f = none)) := by
          refine ⟨List.mem_cons_self f rest, ?_⟩
          by_cases hrem : (fsLookup fs f).isSome ∧ bf = some f
          · exact Or.inl hrem.2
          · have hAr : fsAfterBreakCheck bf f fs = fs := by
              unfold fsAfterBreakCheck
              rw [if_neg hrem]
            rw [hAr] at hnex
            right
            exact Option.not_isSome_iff_eq_none.mp (fun hs => hnex hs)
        rw [if_pos hRHS]
        split_ifs <;> rfl
      · have hAddg : fsLookup (fsAdd (fsAfterBreakCheck bf f fs) f true) g =
            fsLookup fs g := by
          rw [fsLookup_add, if_neg (Ne.symm hfg)]
          exact fsLookup_afterBreakCheck bf f fs g (Or.inr hfg)
        rw [hAddg]
        have hne : g ≠ f := Ne.symm hfg
        exact if_congr (by simp [List.mem_cons, hne]) rfl rfl

lemma downloadGo_allSuccess_present (orc : FtpFile → DlResult)
    (hsucc : ∀ f, orc f = .success) (bf : Option FtpFile) (files : List FtpFile)
    (fs : FSt) (f : FtpFile) (hf : f ∈ files) :
    (fsLookup (downloadGo orc bf files fs).2.2 f).isSome = true := by
  obtain ⟨-, -, h3⟩ := downloadGo_allSuccess orc hsucc bf files fs
  rw [h3 f]
  by_cases hc : f ∈ files ∧ (bf = some f ∨ fsLookup fs f = none)
  · rw [if_pos hc]; rfl
  · rw [if_neg hc]
    have hnn : fsLookup fs f ≠ none := by tauto
    cases hv : fsLookup fs f with
    | none => exact absurd hv hnn
    | some b => rfl

/-- An oracle for the witnesses: the transfer of file (day 0, hour 6)
disconnects; every other transfer succeeds. -/
def sampleOracle (f : FtpFile) : DlResult :=
  if f = (0, 6) then .eofError else .success

/-- C8: (1) whenever a pass of `download` returns with the flag still set, the
returned break file `F` is one whose transfer hit `EOFError` or
`ConnectionResetError`; `F` is recorded in the returned state as a present but
partial file, and it belongs to the planned range.  (2) A pass whose session
never disconnects — in particular the fresh-session pass the retry loop
starts after a disconnect — clears the flag, leaves every file of the
inclusive range (four synoptic hours per date) present, and when it was given
a recorded break file inside the range, that possibly partial file has been
deleted and re-downloaded to completion.  (3) Hence the `while flag` loop
stops with the flag cleared and the whole range present as soon as a pass
runs disconnect-free. -/
theorem downloader_disconnect_recovery :
    (∀ (orc : FtpFile → DlResult) (bf : Option FtpFile) (startDay endDay : ℤ)
      (fs : FSt) (F : FtpFile) (fs' : FSt),
      downloadPass orc bf startDay endDay fs = (some F, true, fs') →
      orc F ≠ .success ∧ fsLookup fs' F = some false ∧
        F ∈ allFiles (daysInRange startDay endDay)) ∧
    (∀ (orc : FtpFile → DlResult) (bf : Option FtpFile) (startDay endDay : ℤ)
      (fs : FSt), (∀ f, orc f = .success) →
      (downloadPass orc bf startDay endDay fs).1 = none ∧
      (downloadPass orc bf startDay endDay fs).2.1 = false ∧
      (∀ f ∈ allFiles (daysInRange startDay endDay),
        (fsLookup (downloadPass orc bf startDay endDay fs).2.2 f).isSome = true) ∧
      (∀ F ∈ allFiles (daysInRange startDay endDay), bf = some F →
        fsLookup (downloadPass orc bf startDay endDay fs).2.2 F = some true)) ∧
    (∀ (orc : ℕ → FtpFile → DlResult) (startDay endDay : ℤ) (fuel passIdx : ℕ)
      (bf : Option FtpFile) (fs : FSt), (∀ f, orc passIdx f = .success) →
      (retryLoop orc (allFiles (daysInRange startDay endDay))
        (fuel + 1) passIdx bf fs).2.1 = false ∧
      (∀ f ∈ allFiles (daysInRange startDay endDay),
        (fsLookup (retryLoop orc (allFiles (daysInRange startDay endDay))
          (fuel + 1) passIdx bf fs).2.2 f).isSome = true)) := by
  refine ⟨?_, ?_, ?_⟩
  · intro orc bf startDay endDay fs F fs' hrun
    exact downloadGo_disconnect orc bf _ fs F fs' hrun
  · intro orc bf startDay endDay fs hsucc
    obtain ⟨h1, h2, h3⟩ :=
      downloadGo_allSuccess orc hsucc bf (allFiles (daysInRange startDay endDay)) fs
    refine ⟨h1, h2, ?_, ?_⟩
    · intro f hf
      exact downloadGo_allSuccess_present orc hsucc bf _ fs f hf
    · intro F hF hbf
      unfold downloadPass
      rw [h3 F, if_pos ⟨hF, Or.inl hbf⟩]
  · intro orc startDay endDay fuel passIdx bf fs hsucc
    obtain ⟨h1, h2, h3⟩ := downloadGo_allSuccess (orc passIdx) hsucc bf
      (allFiles (daysInRange startDay endDay)) fs
    have hloop : retryLoop orc (allFiles (daysInRange startDay endDay))
        (fuel + 1) passIdx bf fs =
        downloadGo (orc passIdx) bf (allFiles (daysInRange startDay endDay)) fs := by
      simp only [retryLoop]
      rw [if_neg (by rw [h2]; simp)]
    rw [hloop]
    exact ⟨h2, fun f hf =>
      downloadGo_allSuccess_present (orc passIdx) hsucc bf _ fs f hf⟩

/-- Closed instantiation of `downloader_disconnect_recovery`: over a
one-day range with the (0, 6) transfer disconnecting, the pass returns break
file (0, 6), recorded as partial. -/
theorem downloader_disconnect_recovery_witness :
    sampleOracle (0, 6) ≠ DlResult.success ∧
    fsLookup [(((0:ℕ), (6:ℕ)), false), (((0:ℕ), (0:ℕ)), true)] (0, 6) =
      some false ∧
    ((0:ℕ), (6:ℕ)) ∈ allFiles (daysInRange 0 0) :=
  downloader_disconnect_recovery.1 sampleOracle none 0 0 [] (0, 6)
    [(((0:ℕ), (6:ℕ)), false), (((0:ℕ), (0:ℕ)), true)] (by decide)

/-- C10: any file that exists locally and is not the recorded break file is
left untouched — same presence, same completeness bit — by a pass of
`download` under every oracle, and is never returned as the new break file;
consequently the whole retry loop, across every reconnect, preserves it. -/
theorem downloader_frame_preservation :
    (∀ (orc : FtpFile → DlResult) (bf : Option FtpFile) (files : List FtpFile)
      (fs : FSt) (g : FtpFile) (s : Bool),
      fsLookup fs g = some s → bf ≠ some g →
      fsLookup (downloadGo orc bf files fs).2.2 g = some s ∧
      (downloadGo orc bf files fs).1 ≠ some g) ∧
    (∀ (orc : ℕ → FtpFile → DlResult) (files : List FtpFile)
      (fuel passIdx : ℕ) (bf : Option FtpFile) (fs : FSt) (g : FtpFile) (s : Bool),
      fsLookup fs g = some s → bf ≠ some g →
      fsLookup (retryLoop orc files fuel passIdx bf fs).2.2 g = some s) := by
  refine ⟨fun orc bf => downloadGo_frame orc bf, ?_⟩
  intro orc files fuel
  induction fuel with
  | zero =>
    intro passIdx bf fs g s hg _
    simpa [retryLoop] using hg
  | succ fuel ih =>
    intro passIdx bf fs g s hg hbf
    obtain ⟨hpres, hne⟩ := downloadGo_frame (orc passIdx) bf files fs g s hg hbf
    simp only [retryLoop]
    split
    · exact ih (passIdx + 1) _ _ g s hpres hne
    · exact hpres

/-- Closed instantiation of `downloader_frame_preservation`: the completed
file (0, 0) survives the disconnecting pass untouched. -/
theorem downloader_frame_preservation_witness :
    fsLookup (downloadGo sampleOracle none (allFiles 1)
      [(((0:ℕ), (0:ℕ)), true)]).2.2 (0, 0) = some true ∧
    (downloadGo sampleOracle none (allFiles 1)
      [(((0:ℕ), (0:ℕ)), true)]).1 ≠ some (0, 0) :=
  downloader_frame_preservation.1 sampleOracle none (allFiles 1)
    [(((0:ℕ), (0:ℕ)), true)] (0, 0) true (by decide) (by decide)

end Redissertation
